import Mathlib

/-!
Shallow embedding of the client-side `WebSocketManager` singleton and the
`createWebSocket` helper of the MCP-Server frontend API module.

The manager's mutable fields are modelled as a record; created sockets are
tracked by index (`socks : Nat → SockState` with `nSockets` allocated so far),
so that abandoned sockets remain observable.  Method calls and transport
events are modelled as a step function on this record; `run` folds a trace of
actions from the initial state.  `JSON.parse` is modelled as an arbitrary
fallible decoding function `parse : String → Option String` (`none` = the
parse throws).  Listener callbacks are abstract and identified by `Nat`;
delivery of a decoded payload to a listener is recorded in the `delivered`
log, and outgoing heartbeat frames in the `sent` log.
-/

/-- readyState of one WebSocket: CONNECTING, OPEN, or CLOSED
(CLOSING is merged into closed; nothing in the manager distinguishes them). -/
inductive SockState where
  | connecting
  | opened
  | closed
deriving DecidableEq, Repr

/-- State of the `WebSocketManager` singleton:
`ws` (the nullable socket reference, by index), `isReconnecting`,
`reconnectTimeout` split into the stored handle (`reconnectHandle`, field
non-null) and the number of scheduled-but-unfired timers (`reconnectPending`),
`pingInterval` (interval active), and the listener `Set` as an
insertion-ordered duplicate-free list.  `socks`/`nSockets` track every socket
the manager ever constructed; `closePending i` records that `close()` was
called on socket `i` but the browser has not yet fired its close event (which
still runs the attached `onclose` handler when it fires); `delivered` and
`sent` are observation logs. -/
structure WebSocketManager where
  nSockets : Nat
  socks : Nat → SockState
  closePending : Nat → Bool
  ws : Option Nat
  isReconnecting : Bool
  reconnectHandle : Bool
  reconnectPending : Nat
  pingInterval : Bool
  listeners : List Nat
  delivered : List (Nat × String)
  sent : List String

namespace WebSocketManager

/-- The fresh singleton: no sockets, no timers, no listeners. -/
def init : WebSocketManager :=
  { nSockets := 0
    socks := fun _ => SockState.closed
    closePending := fun _ => false
    ws := none
    isReconnecting := false
    reconnectHandle := false
    reconnectPending := 0
    pingInterval := false
    listeners := []
    delivered := []
    sent := [] }

/-- `this.ws?.readyState === WebSocket.OPEN`. -/
def wsOpen (s : WebSocketManager) : Bool :=
  match s.ws with
  | some i => decide (s.socks i = SockState.opened)
  | none => false

/-- Heartbeat period of `startPingInterval` (ms). -/
def pingIntervalMs : Nat := 30000

/-- Reconnect delay scheduled in the `onclose` handler (ms). -/
def reconnectDelayMs : Nat := 5000

/-- `connect()`: early return when the socket is open or a reconnect is in
flight; otherwise set the reentry flag and construct a fresh socket. -/
def connect (s : WebSocketManager) : WebSocketManager :=
  if s.wsOpen = true ∨ s.isReconnecting = true then s
  else
    { s with isReconnecting := true
             ws := some s.nSockets
             socks := fun j => if j = s.nSockets then SockState.connecting else s.socks j
             closePending := fun j => if j = s.nSockets then false else s.closePending j
             nSockets := s.nSockets + 1 }

/-- Body of the `onopen` handler: clear the reentry flag, cancel a recorded
reconnect timer (`clearTimeout` plus nulling the handle), then
`startPingInterval` (clears any previous interval and starts a new one). -/
def onopen (s : WebSocketManager) : WebSocketManager :=
  { s with isReconnecting := false
           reconnectHandle := false
           reconnectPending :=
             if s.reconnectHandle then s.reconnectPending - 1 else s.reconnectPending
           pingInterval := true }

/-- Body of the `onerror` handler: only clears the reentry flag. -/
def onerror (s : WebSocketManager) : WebSocketManager :=
  { s with isReconnecting := false }

/-- Body of the `onclose` handler: clear the reentry flag, null `ws`,
stop the ping interval, and — only when no reconnect handle is recorded and
listeners remain — schedule one reconnect timer and record its handle. -/
def onclose (s : WebSocketManager) : WebSocketManager :=
  if s.reconnectHandle = false ∧ s.listeners ≠ [] then
    { s with isReconnecting := false
             ws := none
             pingInterval := false
             reconnectHandle := true
             reconnectPending := s.reconnectPending + 1 }
  else
    { s with isReconnecting := false
             ws := none
             pingInterval := false }

/-- Body of the `onmessage` handler: `"pong"` returns early; otherwise
`JSON.parse` (modelled by `parse`) either yields a payload that is fanned out
to every listener in insertion order, or throws, which the `catch` swallows. -/
def onmessage (parse : String → Option String) (data : String)
    (s : WebSocketManager) : WebSocketManager :=
  if data = "pong" then s
  else
    match parse data with
    | some v => { s with delivered := s.delivered ++ s.listeners.map fun l => (l, v) }
    | none => s

/-- The browser fires `open` on a socket only while it is connecting;
the socket becomes OPEN and the attached `onopen` handler runs. -/
def fireOpen (i : Nat) (s : WebSocketManager) : WebSocketManager :=
  if s.socks i = SockState.connecting then
    onopen { s with socks := fun j => if j = i then SockState.opened else s.socks j }
  else s

/-- The browser fires `error` on a non-closed socket; the socket's state is
not changed by the error itself, only the attached `onerror` handler runs. -/
def fireError (i : Nat) (s : WebSocketManager) : WebSocketManager :=
  if s.socks i = SockState.closed then s else onerror s

/-- The browser fires `close` on a socket that is not yet closed, or delivers
the queued close event of a socket on which the manager called `close()`
(`closePending`); either way the socket ends CLOSED and the attached
`onclose` handler runs.  A socket whose close event already fired (closed and
not pending) fires nothing again. -/
def fireClose (i : Nat) (s : WebSocketManager) : WebSocketManager :=
  if s.socks i = SockState.closed ∧ s.closePending i = false then s
  else onclose { s with socks := fun j => if j = i then SockState.closed else s.socks j
                        closePending := fun j => if j = i then false else s.closePending j }

/-- A frame arrives on an OPEN socket; the attached `onmessage` handler runs. -/
def fireMessage (parse : String → Option String) (i : Nat) (data : String)
    (s : WebSocketManager) : WebSocketManager :=
  if s.socks i = SockState.opened then onmessage parse data s else s

/-- `addListener`: insert into the `Set` (insertion order, no duplicates),
then connect when no socket is referenced and no reconnect is in flight. -/
def addListener (l : Nat) (s : WebSocketManager) : WebSocketManager :=
  let t := { s with listeners :=
    if l ∈ s.listeners then s.listeners else s.listeners ++ [l] }
  if t.ws = none ∧ t.isReconnecting = false then t.connect else t

/-- `removeListener`: delete from the `Set`; when it became empty, call
`close()` on the referenced socket and null the reference, `clearTimeout` a
recorded reconnect handle, and `clearInterval` the ping interval.  The
`close()` call leaves the socket's close event queued (`closePending`): the
browser fires it later and the attached `onclose` handler still runs then. -/
def removeListener (l : Nat) (s : WebSocketManager) : WebSocketManager :=
  if s.listeners.erase l = [] then
    { s with listeners := []
             socks := fun j => if s.ws = some j then SockState.closed else s.socks j
             closePending := fun j => if s.ws = some j then true else s.closePending j
             ws := none
             reconnectHandle := false
             reconnectPending :=
               if s.reconnectHandle then s.reconnectPending - 1 else s.reconnectPending
             pingInterval := false }
  else { s with listeners := s.listeners.erase l }

/-- `removeListener` with its `close()`'s queued close event delivered
immediately afterwards (no other task interleaves before the browser fires
it): the drained-removal schedule used by the amended C1/C4/C8 claims. -/
def removeListenerDrained (l : Nat) (s : WebSocketManager) : WebSocketManager :=
  if s.listeners.erase l = [] then
    match s.ws with
    | some i => fireClose i (s.removeListener l)
    | none => s.removeListener l
  else s.removeListener l

/-- A scheduled reconnect timer fires (it does not null the stored handle):
when listeners remain, call `connect`. -/
def fireReconnectTimer (s : WebSocketManager) : WebSocketManager :=
  if 0 < s.reconnectPending then
    if s.listeners ≠ [] then
      WebSocketManager.connect { s with reconnectPending := s.reconnectPending - 1 }
    else { s with reconnectPending := s.reconnectPending - 1 }
  else s

/-- One tick of the ping interval: sends the literal `"ping"` only while the
referenced socket is OPEN. -/
def firePingTimer (s : WebSocketManager) : WebSocketManager :=
  if s.pingInterval = true ∧ s.wsOpen = true then
    { s with sent := s.sent ++ ["ping"] }
  else s

/-- Number of non-closed sockets ever constructed by the manager. -/
def liveCount (s : WebSocketManager) : Nat :=
  ((Finset.range s.nSockets).filter fun i => s.socks i ≠ SockState.closed).card

end WebSocketManager

/-- `createWebSocket()`: obtains the singleton and immediately calls
`connect()` on it. -/
def createWebSocket (s : WebSocketManager) : WebSocketManager :=
  WebSocketManager.connect s

/-- The `onmessage` member of the handle returned by `createWebSocket`:
it registers the callback through `addListener`. -/
def createWebSocketOnmessage (l : Nat) (s : WebSocketManager) : WebSocketManager :=
  WebSocketManager.addListener l s

/-- The `close` member of the handle returned by `createWebSocket`:
`close: () => {}` — a no-op on the manager. -/
def createWebSocketClose (s : WebSocketManager) : WebSocketManager := s

/-- `generateClientId()`: `'mcp-' + Math.random().toString(36).substring(2, 15)`,
with the random suffix abstracted as `r`. -/
def generateClientId (r : String) : String := "mcp-" ++ r

/-- The private `WebSocketManager` constructor restricted to its effect on
`localStorage` (modelled as a key-value map): read the id under
`'mcp_client_id'` (the JS `||` falls through on the falsy empty string),
generate a fresh one if absent, and store it back.  Returns the chosen
client id and the updated storage. -/
def mgrConstructor (ls : String → Option String) (r : String) :
    String × (String → Option String) :=
  let cid :=
    match ls "mcp_client_id" with
    | some s => if s = "" then generateClientId r else s
    | none => generateClientId r
  (cid, fun k => if k = "mcp_client_id" then some cid else ls k)

/-- External stimuli of the manager: exported calls (`connect` via
`createWebSocket`, `addListener`, `removeListener`) and transport/timer
events.  `transportErrorClose` is an error event immediately followed by the
same socket's close event, the pairing the WebSocket API guarantees;
`transportError` is a bare error with no adjacent close.
`removeListenerDrained` is a removal whose `close()` close event is
delivered immediately; bare `removeListener` leaves that event queued, to be
delivered by a later `transportClose` on the closed socket. -/
inductive MgrAction where
  | connect
  | addListener (l : Nat)
  | removeListener (l : Nat)
  | removeListenerDrained (l : Nat)
  | transportOpen (i : Nat)
  | transportError (i : Nat)
  | transportErrorClose (i : Nat)
  | transportClose (i : Nat)
  | transportMessage (i : Nat) (data : String)
  | reconnectTimer
  | pingTimer
deriving DecidableEq, Repr

/-- One action applied to the manager state. -/
def step (parse : String → Option String) (a : MgrAction) (s : WebSocketManager) :
    WebSocketManager :=
  match a with
  | .connect => s.connect
  | .addListener l => s.addListener l
  | .removeListener l => s.removeListener l
  | .removeListenerDrained l => s.removeListenerDrained l
  | .transportOpen i => WebSocketManager.fireOpen i s
  | .transportError i => WebSocketManager.fireError i s
  | .transportErrorClose i =>
      WebSocketManager.fireClose i (WebSocketManager.fireError i s)
  | .transportClose i => WebSocketManager.fireClose i s
  | .transportMessage i data => WebSocketManager.fireMessage parse i data s
  | .reconnectTimer => WebSocketManager.fireReconnectTimer s
  | .pingTimer => WebSocketManager.firePingTimer s

/-- A trace of actions applied in order. -/
def run (parse : String → Option String) (tr : List MgrAction)
    (s : WebSocketManager) : WebSocketManager :=
  tr.foldl (fun s a => step parse a s) s

/-- Bare transport-error events (error not immediately followed by the
socket's close). -/
def isBareError : MgrAction → Bool
  | .transportError _ => true
  | _ => false

/-- Direct `connect` calls (the call `createWebSocket` performs eagerly). -/
def isConnectCall : MgrAction → Bool
  | .connect => true
  | _ => false

/-- `addListener` calls. -/
def isAddCall : MgrAction → Bool
  | .addListener _ => true
  | _ => false

/-- Bare `removeListener` calls (queued close event left undelivered until
an arbitrary later moment). -/
def isBareRemove : MgrAction → Bool
  | .removeListener _ => true
  | _ => false

/-- Traces without bare error events. -/
def errFree (tr : List MgrAction) : Bool := tr.all fun a => !isBareError a

/-- Traces without direct `connect` calls. -/
def connectFree (tr : List MgrAction) : Bool := tr.all fun a => !isConnectCall a

/-- Traces without `addListener` calls. -/
def addFree (tr : List MgrAction) : Bool := tr.all fun a => !isAddCall a

/-- Traces whose listener removals are all drained (each `close()`'s close
event delivered before anything else runs). -/
def drainFree (tr : List MgrAction) : Bool := tr.all fun a => !isBareRemove a

/-- A fixed trivial model of `JSON.parse` that always throws. -/
def parseFail : String → Option String := fun _ => none

/-- A fixed trivial model of `JSON.parse` that always succeeds. -/
def parseOk : String → Option String := fun d => some d

/-- Socket-reference invariant: every socket other than the one referenced by
`ws` is closed, the referenced socket is not closed, and while it is still
connecting the reentry flag is set. -/
def goodSock (s : WebSocketManager) : Prop :=
  (∀ j, s.ws ≠ some j → s.socks j = SockState.closed) ∧
  ∀ w, s.ws = some w →
    s.socks w ≠ SockState.closed ∧
    (s.socks w = SockState.connecting → s.isReconnecting = true)

/-- Reconnect-timer invariant: at most one timer is pending, and none is
pending when no handle is recorded. -/
def timerInv (s : WebSocketManager) : Prop :=
  s.reconnectPending ≤ 1 ∧ (s.reconnectHandle = false → s.reconnectPending = 0)

/-- No socket has an undelivered queued close event. -/
def noPending (s : WebSocketManager) : Prop :=
  ∀ j, s.closePending j = false

/-- With no listeners subscribed, every socket is closed. -/
def zeroListenersClosed (s : WebSocketManager) : Prop :=
  s.listeners = [] → ∀ j, s.socks j = SockState.closed

/-- The manager has never constructed a socket and holds no listeners. -/
def pristine (s : WebSocketManager) : Prop :=
  s.listeners = [] ∧ s.ws = none ∧ s.nSockets = 0 ∧
    (∀ j, s.socks j = SockState.closed) ∧ ∀ j, s.closePending j = false

open WebSocketManager

theorem run_nil (parse : String → Option String) (s : WebSocketManager) :
    run parse [] s = s := rfl

theorem run_cons (parse : String → Option String) (a : MgrAction)
    (tr : List MgrAction) (s : WebSocketManager) :
    run parse (a :: tr) s = run parse tr (step parse a s) := rfl

theorem run_inv (parse : String → Option String) (P : WebSocketManager → Prop)
    (A : MgrAction → Prop)
    (hstep : ∀ a s, A a → P s → P (step parse a s)) :
    ∀ (tr : List MgrAction) (s : WebSocketManager),
      (∀ a ∈ tr, A a) → P s → P (run parse tr s) := by
  intro tr
  induction tr with
  | nil => intro s _ hp; exact hp
  | cons a tr ih =>
      intro s hall hp
      have ha : A a := hall a (List.mem_cons_self a tr)
      have htr : ∀ b ∈ tr, A b := fun b hb => hall b (List.mem_cons_of_mem a hb)
      exact ih (step parse a s) htr (hstep a s ha hp)

theorem connect_listeners (s : WebSocketManager) :
    s.connect.listeners = s.listeners := by
  unfold WebSocketManager.connect; split <;> rfl

theorem connect_reconnectHandle (s : WebSocketManager) :
    s.connect.reconnectHandle = s.reconnectHandle := by
  unfold WebSocketManager.connect; split <;> rfl

theorem connect_reconnectPending (s : WebSocketManager) :
    s.connect.reconnectPending = s.reconnectPending := by
  unfold WebSocketManager.connect; split <;> rfl

theorem addListener_listeners (l : Nat) (s : WebSocketManager) :
    (s.addListener l).listeners =
      if l ∈ s.listeners then s.listeners else s.listeners ++ [l] := by
  unfold WebSocketManager.addListener
  dsimp only
  split
  · rw [connect_listeners]
  · rfl

theorem fireOpen_listeners (i : Nat) (s : WebSocketManager) :
    (fireOpen i s).listeners = s.listeners := by
  unfold WebSocketManager.fireOpen WebSocketManager.onopen; split <;> rfl

theorem fireError_listeners (i : Nat) (s : WebSocketManager) :
    (fireError i s).listeners = s.listeners := by
  unfold WebSocketManager.fireError WebSocketManager.onerror; split <;> rfl

theorem fireClose_listeners (i : Nat) (s : WebSocketManager) :
    (fireClose i s).listeners = s.listeners := by
  unfold WebSocketManager.fireClose WebSocketManager.onclose
  split
  · rfl
  · split <;> rfl

theorem onmessage_listeners (parse : String → Option String) (data : String)
    (s : WebSocketManager) : (onmessage parse data s).listeners = s.listeners := by
  unfold WebSocketManager.onmessage
  split
  · rfl
  · split <;> rfl

theorem fireMessage_listeners (parse : String → Option String) (i : Nat)
    (data : String) (s : WebSocketManager) :
    (fireMessage parse i data s).listeners = s.listeners := by
  unfold WebSocketManager.fireMessage
  split
  · rw [onmessage_listeners]
  · rfl

theorem fireReconnectTimer_listeners (s : WebSocketManager) :
    (fireReconnectTimer s).listeners = s.listeners := by
  unfold WebSocketManager.fireReconnectTimer
  split
  · split
    · rw [connect_listeners]
    · rfl
  · rfl

theorem firePingTimer_listeners (s : WebSocketManager) :
    (firePingTimer s).listeners = s.listeners := by
  unfold WebSocketManager.firePingTimer; split <;> rfl

theorem removeListener_last_ws (l : Nat) (s : WebSocketManager)
    (h : s.listeners.erase l = []) : (s.removeListener l).ws = none := by
  unfold WebSocketManager.removeListener
  rw [if_pos h]

theorem removeListenerDrained_listeners (l : Nat) (s : WebSocketManager) :
    (s.removeListenerDrained l).listeners = s.listeners.erase l := by
  unfold WebSocketManager.removeListenerDrained
  split
  · rename_i he
    cases hws : s.ws with
    | none =>
        simp only [hws]
        unfold WebSocketManager.removeListener
        rw [if_pos he, he]
    | some i =>
        simp only [hws]
        rw [fireClose_listeners]
        unfold WebSocketManager.removeListener
        rw [if_pos he, he]
  · rename_i he
    unfold WebSocketManager.removeListener
    rw [if_neg he]

theorem timerInv_init : timerInv WebSocketManager.init :=
  ⟨Nat.zero_le 1, fun _ => rfl⟩

theorem timerInv_connect (s : WebSocketManager) (h : timerInv s) :
    timerInv s.connect := by
  unfold WebSocketManager.connect
  split
  · exact h
  · exact h

theorem timerInv_onopen (s : WebSocketManager) (h : timerInv s) :
    timerInv (onopen s) := by
  obtain ⟨h1, h2⟩ := h
  unfold WebSocketManager.onopen
  constructor
  · dsimp only
    split
    · omega
    · exact h1
  · intro _
    dsimp only
    split
    · omega
    · rename_i hb
      exact h2 (by simpa using hb)

theorem timerInv_onclose (s : WebSocketManager) (h : timerInv s) :
    timerInv (onclose s) := by
  obtain ⟨h1, h2⟩ := h
  unfold WebSocketManager.onclose
  split
  · rename_i hb
    have h0 : s.reconnectPending = 0 := h2 hb.1
    constructor
    · dsimp only; omega
    · intro hc; simp at hc
  · exact ⟨h1, h2⟩

theorem timerInv_addListener (l : Nat) (s : WebSocketManager) (h : timerInv s) :
    timerInv (s.addListener l) := by
  unfold WebSocketManager.addListener
  dsimp only
  split
  · exact timerInv_connect _ h
  · exact h

theorem timerInv_removeListener (l : Nat) (s : WebSocketManager) (h : timerInv s) :
    timerInv (s.removeListener l) := by
  obtain ⟨h1, h2⟩ := h
  unfold WebSocketManager.removeListener
  split
  · constructor
    · dsimp only
      split
      · omega
      · exact h1
    · intro _
      dsimp only
      split
      · omega
      · rename_i hb
        exact h2 (by simpa using hb)
  · exact ⟨h1, h2⟩

theorem timerInv_fireOpen (i : Nat) (s : WebSocketManager) (h : timerInv s) :
    timerInv (fireOpen i s) := by
  unfold WebSocketManager.fireOpen
  split
  · exact timerInv_onopen _ h
  · exact h

theorem timerInv_fireError (i : Nat) (s : WebSocketManager) (h : timerInv s) :
    timerInv (fireError i s) := by
  unfold WebSocketManager.fireError
  split
  · exact h
  · exact h

theorem timerInv_fireClose (i : Nat) (s : WebSocketManager) (h : timerInv s) :
    timerInv (fireClose i s) := by
  unfold WebSocketManager.fireClose
  split
  · exact h
  · exact timerInv_onclose _ h

theorem timerInv_removeListenerDrained (l : Nat) (s : WebSocketManager)
    (h : timerInv s) : timerInv (s.removeListenerDrained l) := by
  unfold WebSocketManager.removeListenerDrained
  split
  · cases hws : s.ws with
    | none => simp only [hws]; exact timerInv_removeListener l s h
    | some i => simp only [hws]; exact timerInv_fireClose i _ (timerInv_removeListener l s h)
  · exact timerInv_removeListener l s h

theorem timerInv_onmessage (parse : String → Option String) (data : String)
    (s : WebSocketManager) (h : timerInv s) : timerInv (onmessage parse data s) := by
  unfold WebSocketManager.onmessage
  split
  · exact h
  · split
    · exact h
    · exact h

theorem timerInv_fireMessage (parse : String → Option String) (i : Nat)
    (data : String) (s : WebSocketManager) (h : timerInv s) :
    timerInv (fireMessage parse i data s) := by
  unfold WebSocketManager.fireMessage
  split
  · exact timerInv_onmessage _ _ _ h
  · exact h

theorem timerInv_fireReconnectTimer (s : WebSocketManager) (h : timerInv s) :
    timerInv (fireReconnectTimer s) := by
  obtain ⟨h1, h2⟩ := h
  unfold WebSocketManager.fireReconnectTimer
  split
  · split
    · apply timerInv_connect
      exact ⟨by dsimp only; omega, fun _ => by dsimp only; omega⟩
    · exact ⟨by dsimp only; omega, fun _ => by dsimp only; omega⟩
  · exact ⟨h1, h2⟩

theorem timerInv_firePingTimer (s : WebSocketManager) (h : timerInv s) :
    timerInv (firePingTimer s) := by
  unfold WebSocketManager.firePingTimer
  split
  · exact h
  · exact h

theorem timerInv_step (parse : String → Option String) (a : MgrAction)
    (s : WebSocketManager) (h : timerInv s) : timerInv (step parse a s) := by
  cases a with
  | connect => exact timerInv_connect s h
  | addListener l => exact timerInv_addListener l s h
  | removeListener l => exact timerInv_removeListener l s h
  | removeListenerDrained l => exact timerInv_removeListenerDrained l s h
  | transportOpen i => exact timerInv_fireOpen i s h
  | transportError i => exact timerInv_fireError i s h
  | transportErrorClose i => exact timerInv_fireClose i _ (timerInv_fireError i s h)
  | transportClose i => exact timerInv_fireClose i s h
  | transportMessage i data => exact timerInv_fireMessage parse i data s h
  | reconnectTimer => exact timerInv_fireReconnectTimer s h
  | pingTimer => exact timerInv_firePingTimer s h

theorem timerInv_run (parse : String → Option String) (tr : List MgrAction) :
    timerInv (run parse tr WebSocketManager.init) :=
  run_inv parse timerInv (fun _ => True)
    (fun a s _ h => timerInv_step parse a s h) tr WebSocketManager.init
    (fun _ _ => trivial) timerInv_init

theorem nodup_addListener (l : Nat) (s : WebSocketManager)
    (h : s.listeners.Nodup) : (s.addListener l).listeners.Nodup := by
  rw [addListener_listeners]
  split
  · exact h
  · rename_i hmem
    simp [List.nodup_append, h, hmem]

theorem nodup_removeListener (l : Nat) (s : WebSocketManager)
    (h : s.listeners.Nodup) : (s.removeListener l).listeners.Nodup := by
  unfold WebSocketManager.removeListener
  split
  · exact List.nodup_nil
  · exact h.erase l

theorem nodup_step (parse : String → Option String) (a : MgrAction)
    (s : WebSocketManager) (h : s.listeners.Nodup) :
    (step parse a s).listeners.Nodup := by
  cases a with
  | connect => rw [step, connect_listeners]; exact h
  | addListener l => exact nodup_addListener l s h
  | removeListener l => exact nodup_removeListener l s h
  | removeListenerDrained l =>
      rw [step, removeListenerDrained_listeners]; exact h.erase l
  | transportOpen i => rw [step, fireOpen_listeners]; exact h
  | transportError i => rw [step, fireError_listeners]; exact h
  | transportErrorClose i =>
      rw [step, fireClose_listeners, fireError_listeners]; exact h
  | transportClose i => rw [step, fireClose_listeners]; exact h
  | transportMessage i data => rw [step, fireMessage_listeners]; exact h
  | reconnectTimer => rw [step, fireReconnectTimer_listeners]; exact h
  | pingTimer => rw [step, firePingTimer_listeners]; exact h

theorem nodup_run (parse : String → Option String) (tr : List MgrAction) :
    (run parse tr WebSocketManager.init).listeners.Nodup :=
  run_inv parse (fun s => s.listeners.Nodup) (fun _ => True)
    (fun a s _ h => nodup_step parse a s h) tr WebSocketManager.init
    (fun _ _ => trivial) List.nodup_nil

theorem goodSock_init : goodSock WebSocketManager.init := by
  constructor
  · intro j _; rfl
  · intro w hw; cases hw

theorem goodSock_connect (s : WebSocketManager) (h : goodSock s) :
    goodSock s.connect := by
  obtain ⟨h1, h2⟩ := h
  unfold WebSocketManager.connect
  split
  · exact ⟨h1, h2⟩
  · rename_i hg
    push_neg at hg
    obtain ⟨hopen, hrec⟩ := hg
    have hwsnone : s.ws = none := by
      cases hws : s.ws with
      | none => rfl
      | some w =>
        obtain ⟨hnc, hc⟩ := h2 w hws
        have hno : s.socks w ≠ SockState.opened := by
          intro he
          apply hopen
          simp [WebSocketManager.wsOpen, hws, he]
        have hcon : s.socks w = SockState.connecting := by
          cases hcase : s.socks w <;> simp_all
        exact absurd (hc hcon) hrec
    constructor
    · intro j hj
      dsimp only at hj ⊢
      have hjne : j ≠ s.nSockets := fun e => hj (by rw [e])
      rw [if_neg hjne]
      exact h1 j (by rw [hwsnone]; exact fun hc => Option.noConfusion hc)
    · intro w hw
      dsimp only at hw ⊢
      have hwn : w = s.nSockets := by
        injection hw with hw'
        exact hw'.symm
      subst hwn
      rw [if_pos rfl]
      exact ⟨fun hc => SockState.noConfusion hc, fun _ => rfl⟩

theorem goodSock_addListener (l : Nat) (s : WebSocketManager) (h : goodSock s) :
    goodSock (s.addListener l) := by
  unfold WebSocketManager.addListener
  dsimp only
  split
  · exact goodSock_connect _ h
  · exact h

theorem goodSock_removeListener (l : Nat) (s : WebSocketManager) (h : goodSock s) :
    goodSock (s.removeListener l) := by
  obtain ⟨h1, h2⟩ := h
  unfold WebSocketManager.removeListener
  split
  · constructor
    · intro j _
      dsimp only
      by_cases hj : s.ws = some j
      · rw [if_pos hj]
      · rw [if_neg hj]
        exact h1 j hj
    · intro w hw
      exact absurd hw (by simp)
  · exact ⟨h1, h2⟩

theorem onclose_socks (s : WebSocketManager) : (onclose s).socks = s.socks := by
  unfold WebSocketManager.onclose; split <;> rfl

theorem onclose_ws (s : WebSocketManager) : (onclose s).ws = none := by
  unfold WebSocketManager.onclose; split <;> rfl

theorem onclose_closePending (s : WebSocketManager) :
    (onclose s).closePending = s.closePending := by
  unfold WebSocketManager.onclose; split <;> rfl

theorem removeListener_last_pend (l i : Nat) (s : WebSocketManager)
    (he : s.listeners.erase l = []) (hws : s.ws = some i) :
    (s.removeListener l).closePending i = true := by
  unfold WebSocketManager.removeListener
  rw [if_pos he]
  dsimp only
  rw [hws, if_pos rfl]

theorem removeListener_last_allClosed (l : Nat) (s : WebSocketManager)
    (hg : goodSock s) (he : s.listeners.erase l = []) :
    ∀ j, (s.removeListener l).socks j = SockState.closed := by
  intro j
  unfold WebSocketManager.removeListener
  rw [if_pos he]
  dsimp only
  by_cases hj : s.ws = some j
  · rw [if_pos hj]
  · rw [if_neg hj]
    exact hg.1 j hj

theorem removeListenerDrained_allClosed (l : Nat) (s : WebSocketManager)
    (hg : goodSock s) (he : s.listeners.erase l = []) :
    ∀ j, (s.removeListenerDrained l).socks j = SockState.closed := by
  intro j
  unfold WebSocketManager.removeListenerDrained
  rw [if_pos he]
  cases hws : s.ws with
  | none =>
      simp only [hws]
      exact removeListener_last_allClosed l s hg he j
  | some i =>
      simp only [hws]
      unfold WebSocketManager.fireClose
      rw [if_neg (fun hcon => by
        rw [removeListener_last_pend l i s he hws] at hcon
        exact Bool.noConfusion hcon.2)]
      rw [onclose_socks]
      dsimp only
      by_cases hj : j = i
      · rw [if_pos hj]
      · rw [if_neg hj]
        exact removeListener_last_allClosed l s hg he j

theorem removeListenerDrained_ws (l : Nat) (s : WebSocketManager)
    (he : s.listeners.erase l = []) : (s.removeListenerDrained l).ws = none := by
  unfold WebSocketManager.removeListenerDrained
  rw [if_pos he]
  cases hws : s.ws with
  | none =>
      simp only [hws]
      exact removeListener_last_ws l s he
  | some i =>
      simp only [hws]
      unfold WebSocketManager.fireClose
      rw [if_neg (fun hcon => by
        rw [removeListener_last_pend l i s he hws] at hcon
        exact Bool.noConfusion hcon.2)]
      exact onclose_ws _

theorem goodSock_of_allClosed_wsNone (u : WebSocketManager) (hw : u.ws = none)
    (hall : ∀ j, u.socks j = SockState.closed) : goodSock u := by
  constructor
  · intro j _
    exact hall j
  · intro w hw2
    rw [hw] at hw2
    exact absurd hw2 (fun hc => Option.noConfusion hc)

theorem goodSock_removeListenerDrained (l : Nat) (s : WebSocketManager)
    (h : goodSock s) : goodSock (s.removeListenerDrained l) := by
  by_cases he : s.listeners.erase l = []
  · exact goodSock_of_allClosed_wsNone _ (removeListenerDrained_ws l s he)
      (removeListenerDrained_allClosed l s h he)
  · unfold WebSocketManager.removeListenerDrained
    rw [if_neg he]
    exact goodSock_removeListener l s h

theorem goodSock_onclose_upd (i : Nat) (s : WebSocketManager)
    (hall : ∀ j, j ≠ i → s.socks j = SockState.closed) :
    goodSock (onclose
      { s with socks := fun j => if j = i then SockState.closed else s.socks j
               closePending := fun j => if j = i then false else s.closePending j }) := by
  have hkey : ∀ j, (if j = i then SockState.closed else s.socks j) = SockState.closed := by
    intro j
    by_cases hj : j = i
    · rw [if_pos hj]
    · rw [if_neg hj]
      exact hall j hj
  unfold WebSocketManager.onclose
  split
  · exact ⟨fun j _ => hkey j, fun w hw => absurd hw (by simp)⟩
  · exact ⟨fun j _ => hkey j, fun w hw => absurd hw (by simp)⟩

theorem goodSock_fireClose (i : Nat) (s : WebSocketManager)
    (hp : s.closePending i = false) (h : goodSock s) :
    goodSock (fireClose i s) := by
  unfold WebSocketManager.fireClose
  split
  · exact h
  · rename_i hg
    have hne : s.socks i ≠ SockState.closed := fun hc => hg ⟨hc, hp⟩
    have hws : s.ws = some i := by
      by_contra hc
      exact hne (h.1 i hc)
    refine goodSock_onclose_upd i s ?_
    intro j hj
    refine h.1 j ?_
    rw [hws]
    exact fun hc => hj (Option.some.inj hc).symm

theorem goodSock_errorClose (i : Nat) (s : WebSocketManager)
    (hp : s.closePending i = false) (h : goodSock s) :
    goodSock (fireClose i (fireError i s)) := by
  unfold WebSocketManager.fireError
  split
  · exact goodSock_fireClose i s hp h
  · rename_i hne
    have hws : s.ws = some i := by
      by_contra hc
      exact hne (h.1 i hc)
    unfold WebSocketManager.fireClose
    rw [if_neg (fun hcon => hne hcon.1)]
    refine goodSock_onclose_upd i (onerror s) ?_
    intro j hj
    refine h.1 j ?_
    rw [hws]
    exact fun hc => hj (Option.some.inj hc).symm

theorem goodSock_fireOpen (i : Nat) (s : WebSocketManager) (h : goodSock s) :
    goodSock (fireOpen i s) := by
  unfold WebSocketManager.fireOpen
  split
  · rename_i hcon
    have hws : s.ws = some i := by
      by_contra hc
      rw [h.1 i hc] at hcon
      exact SockState.noConfusion hcon
    unfold WebSocketManager.onopen
    constructor
    · intro j hj
      dsimp only at hj ⊢
      have hji : j ≠ i := by
        intro e
        subst e
        exact hj hws
      rw [if_neg hji]
      exact h.1 j (by rw [hws]; exact fun hc => hji (Option.some.inj hc).symm)
    · intro w hw
      dsimp only at hw ⊢
      rw [hws] at hw
      have hwi : w = i := (Option.some.inj hw).symm ▸ rfl
      have hwi' : i = w := Option.some.inj hw
      subst hwi'
      rw [if_pos rfl]
      exact ⟨fun hc => SockState.noConfusion hc, fun hc => SockState.noConfusion hc⟩
  · exact h

theorem goodSock_fireMessage (parse : String → Option String) (i : Nat)
    (data : String) (s : WebSocketManager) (h : goodSock s) :
    goodSock (fireMessage parse i data s) := by
  unfold WebSocketManager.fireMessage WebSocketManager.onmessage
  split
  · split
    · exact h
    · split
      · exact h
      · exact h
  · exact h

theorem goodSock_fireReconnectTimer (s : WebSocketManager) (h : goodSock s) :
    goodSock (fireReconnectTimer s) := by
  unfold WebSocketManager.fireReconnectTimer
  split
  · split
    · exact goodSock_connect _ h
    · exact h
  · exact h

theorem goodSock_firePingTimer (s : WebSocketManager) (h : goodSock s) :
    goodSock (firePingTimer s) := by
  unfold WebSocketManager.firePingTimer
  split
  · exact h
  · exact h

theorem noPending_connect (s : WebSocketManager) (h : noPending s) :
    noPending s.connect := by
  unfold WebSocketManager.connect
  split
  · exact h
  · intro j
    dsimp only
    split
    · rfl
    · exact h j

theorem noPending_addListener (l : Nat) (s : WebSocketManager) (h : noPending s) :
    noPending (s.addListener l) := by
  unfold WebSocketManager.addListener
  dsimp only
  split
  · exact noPending_connect _ h
  · exact h

theorem noPending_fireOpen (i : Nat) (s : WebSocketManager) (h : noPending s) :
    noPending (fireOpen i s) := by
  unfold WebSocketManager.fireOpen WebSocketManager.onopen
  split
  · exact h
  · exact h

theorem noPending_fireError (i : Nat) (s : WebSocketManager) (h : noPending s) :
    noPending (fireError i s) := by
  unfold WebSocketManager.fireError
  split
  · exact h
  · exact h

theorem noPending_fireClose (i : Nat) (s : WebSocketManager) (h : noPending s) :
    noPending (fireClose i s) := by
  unfold WebSocketManager.fireClose
  split
  · exact h
  · intro j
    rw [onclose_closePending]
    dsimp only
    split
    · rfl
    · exact h j

theorem noPending_fireMessage (parse : String → Option String) (i : Nat)
    (data : String) (s : WebSocketManager) (h : noPending s) :
    noPending (fireMessage parse i data s) := by
  unfold WebSocketManager.fireMessage WebSocketManager.onmessage
  split
  · split
    · exact h
    · split
      · exact h
      · exact h
  · exact h

theorem noPending_fireReconnectTimer (s : WebSocketManager) (h : noPending s) :
    noPending (fireReconnectTimer s) := by
  unfold WebSocketManager.fireReconnectTimer
  split
  · split
    · exact noPending_connect _ h
    · exact h
  · exact h

theorem noPending_firePingTimer (s : WebSocketManager) (h : noPending s) :
    noPending (firePingTimer s) := by
  unfold WebSocketManager.firePingTimer
  split
  · exact h
  · exact h

theorem noPending_removeListenerDrained (l : Nat) (s : WebSocketManager)
    (h : noPending s) : noPending (s.removeListenerDrained l) := by
  by_cases he : s.listeners.erase l = []
  · unfold WebSocketManager.removeListenerDrained
    rw [if_pos he]
    cases hws : s.ws with
    | none =>
        simp only [hws]
        intro j
        unfold WebSocketManager.removeListener
        rw [if_pos he]
        dsimp only
        rw [hws]
        rw [if_neg (fun hc => Option.noConfusion hc)]
        exact h j
    | some i =>
        simp only [hws]
        intro j
        unfold WebSocketManager.fireClose
        rw [if_neg (fun hcon => by
          rw [removeListener_last_pend l i s he hws] at hcon
          exact Bool.noConfusion hcon.2)]
        rw [onclose_closePending]
        dsimp only
        by_cases hj : j = i
        · rw [if_pos hj]
        · rw [if_neg hj]
          unfold WebSocketManager.removeListener
          rw [if_pos he]
          dsimp only
          rw [hws]
          rw [if_neg (fun hc => hj (Option.some.inj hc).symm)]
          exact h j
  · unfold WebSocketManager.removeListenerDrained
    rw [if_neg he]
    unfold WebSocketManager.removeListener
    rw [if_neg he]
    exact h

theorem goodInv_step (parse : String → Option String) (a : MgrAction)
    (s : WebSocketManager)
    (ha : isBareError a = false ∧ isBareRemove a = false)
    (h : goodSock s ∧ noPending s) :
    goodSock (step parse a s) ∧ noPending (step parse a s) := by
  obtain ⟨hg, hp⟩ := h
  cases a with
  | connect => exact ⟨goodSock_connect s hg, noPending_connect s hp⟩
  | addListener l => exact ⟨goodSock_addListener l s hg, noPending_addListener l s hp⟩
  | removeListener l => exact absurd ha.2 (by simp [isBareRemove])
  | removeListenerDrained l =>
      exact ⟨goodSock_removeListenerDrained l s hg,
        noPending_removeListenerDrained l s hp⟩
  | transportOpen i => exact ⟨goodSock_fireOpen i s hg, noPending_fireOpen i s hp⟩
  | transportError i => exact absurd ha.1 (by simp [isBareError])
  | transportErrorClose i =>
      exact ⟨goodSock_errorClose i s (hp i) hg,
        noPending_fireClose i _ (noPending_fireError i s hp)⟩
  | transportClose i =>
      exact ⟨goodSock_fireClose i s (hp i) hg, noPending_fireClose i s hp⟩
  | transportMessage i data =>
      exact ⟨goodSock_fireMessage parse i data s hg,
        noPending_fireMessage parse i data s hp⟩
  | reconnectTimer =>
      exact ⟨goodSock_fireReconnectTimer s hg, noPending_fireReconnectTimer s hp⟩
  | pingTimer => exact ⟨goodSock_firePingTimer s hg, noPending_firePingTimer s hp⟩

theorem goodInv_run (parse : String → Option String) (tr : List MgrAction)
    (h1 : errFree tr = true) (h2 : drainFree tr = true) :
    goodSock (run parse tr WebSocketManager.init) ∧
      noPending (run parse tr WebSocketManager.init) := by
  refine run_inv parse (fun s => goodSock s ∧ noPending s)
    (fun a => isBareError a = false ∧ isBareRemove a = false)
    (fun a s ha hs => goodInv_step parse a s ha hs) tr WebSocketManager.init
    ?_ ⟨goodSock_init, fun _ => rfl⟩
  intro a ha
  have hb1 := List.all_eq_true.mp h1 a ha
  have hb2 := List.all_eq_true.mp h2 a ha
  exact ⟨by simpa using hb1, by simpa using hb2⟩

theorem liveCount_le_one (s : WebSocketManager) (h : goodSock s) :
    liveCount s ≤ 1 := by
  unfold WebSocketManager.liveCount
  refine Finset.card_le_one.mpr ?_
  intro a ha b hb
  simp only [Finset.mem_filter, Finset.mem_range] at ha hb
  have hwa : s.ws = some a := by
    by_contra hc
    exact ha.2 (h.1 a hc)
  have hwb : s.ws = some b := by
    by_contra hc
    exact hb.2 (h.1 b hc)
  rw [hwa] at hwb
  exact Option.some.inj hwb

theorem liveCount_eq_zero (s : WebSocketManager)
    (h : ∀ j, s.socks j = SockState.closed) : liveCount s = 0 := by
  unfold WebSocketManager.liveCount
  rw [Finset.card_eq_zero]
  refine Finset.filter_eq_empty_iff.mpr ?_
  intro i _
  simp [h i]

theorem removeListener_last_clean (s : WebSocketManager) (l : Nat)
    (hg : goodSock s) (ht : timerInv s) (h : s.listeners.erase l = []) :
    (s.removeListener l).pingInterval = false ∧
    (s.removeListener l).reconnectHandle = false ∧
    (s.removeListener l).reconnectPending = 0 ∧
    (s.removeListener l).ws = none ∧
    liveCount (s.removeListener l) = 0 := by
  unfold WebSocketManager.removeListener
  rw [if_pos h]
  refine ⟨rfl, rfl, ?_, rfl, ?_⟩
  · dsimp only
    split
    · have := ht.1
      omega
    · rename_i hb
      exact ht.2 (by simpa using hb)
  · apply liveCount_eq_zero
    intro j
    dsimp only
    by_cases hj : s.ws = some j
    · rw [if_pos hj]
    · rw [if_neg hj]
      exact hg.1 j hj

theorem zlc_step (parse : String → Option String) (a : MgrAction)
    (s : WebSocketManager)
    (ha : isBareError a = false ∧ isConnectCall a = false ∧ isBareRemove a = false)
    (h : (goodSock s ∧ noPending s) ∧ zeroListenersClosed s) :
    (goodSock (step parse a s) ∧ noPending (step parse a s)) ∧
      zeroListenersClosed (step parse a s) := by
  obtain ⟨⟨hg, hp⟩, hz⟩ := h
  refine ⟨goodInv_step parse a s ⟨ha.1, ha.2.2⟩ ⟨hg, hp⟩, ?_⟩
  cases a with
  | connect => exact absurd ha.2.1 (by simp [isConnectCall])
  | addListener l =>
      intro hl
      rw [step, addListener_listeners] at hl
      exfalso
      by_cases hmem : l ∈ s.listeners
      · rw [if_pos hmem] at hl
        rw [hl] at hmem
        exact List.not_mem_nil l hmem
      · rw [if_neg hmem] at hl
        exact List.append_ne_nil_of_right_ne_nil s.listeners (by simp) hl
  | removeListener l => exact absurd ha.2.2 (by simp [isBareRemove])
  | removeListenerDrained l =>
      intro hl j
      rw [step] at hl ⊢
      rw [removeListenerDrained_listeners] at hl
      exact removeListenerDrained_allClosed l s hg hl j
  | transportOpen i =>
      intro hl j
      rw [step, fireOpen_listeners] at hl
      have hall := hz hl
      rw [step]
      unfold WebSocketManager.fireOpen
      rw [if_neg (by rw [hall i]; exact fun hc => SockState.noConfusion hc)]
      exact hall j
  | transportError i => exact absurd ha.1 (by simp [isBareError])
  | transportErrorClose i =>
      intro hl j
      rw [step, fireClose_listeners, fireError_listeners] at hl
      have hall := hz hl
      rw [step]
      unfold WebSocketManager.fireError
      rw [if_pos (hall i)]
      unfold WebSocketManager.fireClose
      rw [if_pos ⟨hall i, hp i⟩]
      exact hall j
  | transportClose i =>
      intro hl j
      rw [step, fireClose_listeners] at hl
      have hall := hz hl
      rw [step]
      unfold WebSocketManager.fireClose
      rw [if_pos ⟨hall i, hp i⟩]
      exact hall j
  | transportMessage i data =>
      intro hl j
      rw [step, fireMessage_listeners] at hl
      have hall := hz hl
      rw [step]
      unfold WebSocketManager.fireMessage WebSocketManager.onmessage
      split
      · split
        · exact hall j
        · split
          · exact hall j
          · exact hall j
      · exact hall j
  | reconnectTimer =>
      intro hl j
      rw [step, fireReconnectTimer_listeners] at hl
      have hall := hz hl
      rw [step]
      unfold WebSocketManager.fireReconnectTimer
      split
      · rw [if_neg (by rw [hl]; exact fun hc => hc rfl)]
        exact hall j
      · exact hall j
  | pingTimer =>
      intro hl j
      rw [step, firePingTimer_listeners] at hl
      have hall := hz hl
      rw [step]
      unfold WebSocketManager.firePingTimer
      split
      · exact hall j
      · exact hall j

theorem zlc_run (parse : String → Option String) (tr : List MgrAction)
    (h1 : errFree tr = true) (h2 : connectFree tr = true)
    (h3 : drainFree tr = true) :
    (goodSock (run parse tr WebSocketManager.init) ∧
      noPending (run parse tr WebSocketManager.init)) ∧
      zeroListenersClosed (run parse tr WebSocketManager.init) := by
  refine run_inv parse (fun s => (goodSock s ∧ noPending s) ∧ zeroListenersClosed s)
    (fun a => isBareError a = false ∧ isConnectCall a = false ∧ isBareRemove a = false)
    (fun a s ha hs => zlc_step parse a s ha hs) tr WebSocketManager.init
    ?_ ⟨⟨goodSock_init, fun _ => rfl⟩, fun _ j => rfl⟩
  intro a ha
  have hb1 := List.all_eq_true.mp h1 a ha
  have hb2 := List.all_eq_true.mp h2 a ha
  have hb3 := List.all_eq_true.mp h3 a ha
  exact ⟨by simpa using hb1, by simpa using hb2, by simpa using hb3⟩

theorem pristine_step (parse : String → Option String) (a : MgrAction)
    (s : WebSocketManager) (ha : isConnectCall a = false ∧ isAddCall a = false)
    (h : pristine s) : pristine (step parse a s) := by
  obtain ⟨hl, hw, hn, hc, hq⟩ := h
  cases a with
  | connect => exact absurd ha.1 (by simp [isConnectCall])
  | addListener l => exact absurd ha.2 (by simp [isAddCall])
  | removeListener l =>
      rw [step]
      unfold WebSocketManager.removeListener
      rw [hl, List.erase_nil, if_pos rfl]
      refine ⟨rfl, rfl, hn, ?_, ?_⟩
      · intro j
        dsimp only
        rw [if_neg (by rw [hw]; exact fun hx => Option.noConfusion hx)]
        exact hc j
      · intro j
        dsimp only
        rw [if_neg (by rw [hw]; exact fun hx => Option.noConfusion hx)]
        exact hq j
  | removeListenerDrained l =>
      rw [step]
      unfold WebSocketManager.removeListenerDrained
      rw [hl, List.erase_nil, if_pos rfl, hw]
      unfold WebSocketManager.removeListener
      rw [hl, List.erase_nil, if_pos rfl]
      refine ⟨rfl, rfl, hn, ?_, ?_⟩
      · intro j
        dsimp only
        rw [if_neg (by rw [hw]; exact fun hx => Option.noConfusion hx)]
        exact hc j
      · intro j
        dsimp only
        rw [if_neg (by rw [hw]; exact fun hx => Option.noConfusion hx)]
        exact hq j
  | transportOpen i =>
      rw [step]
      unfold WebSocketManager.fireOpen
      rw [if_neg (by rw [hc i]; exact fun hx => SockState.noConfusion hx)]
      exact ⟨hl, hw, hn, hc, hq⟩
  | transportError i =>
      rw [step]
      unfold WebSocketManager.fireError
      rw [if_pos (hc i)]
      exact ⟨hl, hw, hn, hc, hq⟩
  | transportErrorClose i =>
      rw [step]
      unfold WebSocketManager.fireError
      rw [if_pos (hc i)]
      unfold WebSocketManager.fireClose
      rw [if_pos ⟨hc i, hq i⟩]
      exact ⟨hl, hw, hn, hc, hq⟩
  | transportClose i =>
      rw [step]
      unfold WebSocketManager.fireClose
      rw [if_pos ⟨hc i, hq i⟩]
      exact ⟨hl, hw, hn, hc, hq⟩
  | transportMessage i data =>
      rw [step]
      unfold WebSocketManager.fireMessage WebSocketManager.onmessage
      split
      · split
        · exact ⟨hl, hw, hn, hc, hq⟩
        · split
          · exact ⟨hl, hw, hn, hc, hq⟩
          · exact ⟨hl, hw, hn, hc, hq⟩
      · exact ⟨hl, hw, hn, hc, hq⟩
  | reconnectTimer =>
      rw [step]
      unfold WebSocketManager.fireReconnectTimer
      split
      · rw [if_neg (by rw [hl]; exact fun hx => hx rfl)]
        exact ⟨hl, hw, hn, hc, hq⟩
      · exact ⟨hl, hw, hn, hc, hq⟩
  | pingTimer =>
      rw [step]
      unfold WebSocketManager.firePingTimer
      split
      · exact ⟨hl, hw, hn, hc, hq⟩
      · exact ⟨hl, hw, hn, hc, hq⟩

theorem pristine_run (parse : String → Option String) (tr : List MgrAction)
    (h1 : connectFree tr = true) (h2 : addFree tr = true) :
    pristine (run parse tr WebSocketManager.init) := by
  refine run_inv parse pristine
    (fun a => isConnectCall a = false ∧ isAddCall a = false)
    (fun a s ha hs => pristine_step parse a s ha hs) tr WebSocketManager.init
    ?_ ⟨rfl, rfl, rfl, fun _ => rfl, fun _ => rfl⟩
  intro a ha
  have hb1 := List.all_eq_true.mp h1 a ha
  have hb2 := List.all_eq_true.mp h2 a ha
  exact ⟨by simpa using hb1, by simpa using hb2⟩

theorem fireClose_schedules (i : Nat) (s : WebSocketManager)
    (hh : s.reconnectHandle = false) (hl : s.listeners ≠ [])
    (hs : s.socks i ≠ SockState.closed) :
    (fireClose i s).reconnectPending = s.reconnectPending + 1 ∧
    (fireClose i s).reconnectHandle = true ∧
    (fireClose i s).nSockets = s.nSockets := by
  unfold WebSocketManager.fireClose
  rw [if_neg (fun hcon => hs hcon.1)]
  unfold WebSocketManager.onclose
  rw [if_pos ⟨hh, hl⟩]
  exact ⟨rfl, rfl, rfl⟩

theorem generateClientId_ne_empty (r : String) : generateClientId r ≠ "" := by
  intro he
  have hlen := congrArg String.length he
  rw [generateClientId] at hlen
  rw [String.length_append] at hlen
  have h4 : "mcp-".length = 4 := rfl
  have h0 : "".length = 0 := rfl
  omega

theorem mgrConstructor_setItem (ls : String → Option String) (r : String) :
    (mgrConstructor ls r).2 "mcp_client_id" = some (mgrConstructor ls r).1 := by
  show (if "mcp_client_id" = "mcp_client_id" then some (mgrConstructor ls r).1
        else ls "mcp_client_id") = some (mgrConstructor ls r).1
  rw [if_pos rfl]

theorem mgrConstructor_stored (ls : String → Option String) (r c : String)
    (h : ls "mcp_client_id" = some c) (hc : c ≠ "") :
    (mgrConstructor ls r).1 = c := by
  unfold mgrConstructor
  dsimp only
  rw [h]
  dsimp only
  rw [if_neg hc]

theorem mgrConstructor_fst_ne_empty (ls : String → Option String) (r : String) :
    (mgrConstructor ls r).1 ≠ "" := by
  unfold mgrConstructor
  dsimp only
  cases h : ls "mcp_client_id" with
  | none => exact generateClientId_ne_empty r
  | some s =>
      dsimp only
      split
      · exact generateClientId_ne_empty r
      · assumption

/-- Claim C1 (amended): at every state reachable by interleavings of
`connect`, `addListener`, `removeListener` and transport open/close events in
which (i) every transport error event is immediately followed by the same
socket's close event (the pairing the WebSocket API guarantees) and (ii) the
queued close event of every socket the manager itself closed in
`removeListener` is delivered before anything else runs (drained removals),
at most one socket constructed by the manager is non-closed.  Both provisos
are necessary: a bare error clears the reentry flag while the connecting
socket stays live, so the next `connect()` makes a second socket; and the
stale close event of a `removeListener`-closed socket runs `onclose`, which
nulls `this.ws` while a newer socket is still connecting, abandons it live,
and schedules a reconnect that constructs yet another socket — two live
sockets with no error event at all (see the counterexample's two traces). -/
theorem spec_C1_single_live_socket (parse : String → Option String)
    (tr : List MgrAction) (h1 : errFree tr = true) (h2 : drainFree tr = true) :
    liveCount (run parse tr WebSocketManager.init) ≤ 1 :=
  liveCount_le_one _ (goodInv_run parse tr h1 h2).1

theorem spec_C1_witness :
    errFree [MgrAction.addListener 0] = true ∧
    drainFree [MgrAction.addListener 0] = true ∧
    liveCount (run parseFail [MgrAction.addListener 0] WebSocketManager.init) ≤ 1 :=
  ⟨by decide, by decide, spec_C1_single_live_socket parseFail _ (by decide) (by decide)⟩

theorem spec_C1_counterexample :
    liveCount (run parseFail
      [MgrAction.addListener 0, MgrAction.transportError 0, MgrAction.connect]
      WebSocketManager.init) = 2 ∧
    liveCount (run parseFail
      [MgrAction.addListener 0, MgrAction.transportOpen 0,
       MgrAction.removeListener 0, MgrAction.addListener 1,
       MgrAction.transportClose 0, MgrAction.reconnectTimer]
      WebSocketManager.init) = 2 := by
  refine ⟨by decide, by decide⟩

/-- Claim C2: `connect()` is idempotent — whenever the referenced socket is
already OPEN or the reentry flag `isReconnecting` is set, `connect()` returns
the state unchanged: no new socket, no change to any field. -/
theorem spec_C2_connect_idempotent (s : WebSocketManager)
    (h : s.wsOpen = true ∨ s.isReconnecting = true) :
    s.connect = s := by
  unfold WebSocketManager.connect
  rw [if_pos h]

theorem spec_C2_witness :
    (run parseFail [MgrAction.addListener 0] WebSocketManager.init).isReconnecting
        = true ∧
    WebSocketManager.connect
        (run parseFail [MgrAction.addListener 0] WebSocketManager.init)
      = run parseFail [MgrAction.addListener 0] WebSocketManager.init :=
  ⟨by decide, spec_C2_connect_idempotent _ (Or.inr (by decide))⟩

/-- Claim C3 (amended): on a transport close event with at least one listener
subscribed, the manager schedules exactly one reconnection attempt — pending
count becomes exactly 1 and no socket is created at close time (the attempt
fires only after `reconnectDelayMs` = 5000 ms) — provided no reconnect timer
handle is recorded; because the handle is not cleared when the timer fires, a
close following a fired reconnect attempt schedules nothing further (see the
counterexample).  At every reachable state at most one reconnect timer is
pending. -/
theorem spec_C3_reconnect_scheduling :
    WebSocketManager.reconnectDelayMs = 5000 ∧
    (∀ (parse : String → Option String) (tr : List MgrAction) (i : Nat)
       (s : WebSocketManager), run parse tr WebSocketManager.init = s →
      s.reconnectHandle = false → s.listeners ≠ [] →
      s.socks i ≠ SockState.closed →
      (fireClose i s).reconnectPending = 1 ∧
      (fireClose i s).reconnectHandle = true ∧
      (fireClose i s).nSockets = s.nSockets) ∧
    (∀ (parse : String → Option String) (tr : List MgrAction),
      (run parse tr WebSocketManager.init).reconnectPending ≤ 1) := by
  refine ⟨rfl, ?_, ?_⟩
  · intro parse tr i s hs hh hl hsock
    have ht : timerInv s := hs ▸ timerInv_run parse tr
    have h0 : s.reconnectPending = 0 := ht.2 hh
    obtain ⟨hp, hhd, hn⟩ := fireClose_schedules i s hh hl hsock
    rw [hp, h0]
    exact ⟨rfl, hhd, hn⟩
  · intro parse tr
    exact (timerInv_run parse tr).1

theorem spec_C3_witness :
    (fireClose 0 (run parseFail [MgrAction.addListener 0, MgrAction.transportOpen 0]
      WebSocketManager.init)).reconnectPending = 1 :=
  (spec_C3_reconnect_scheduling.2.1 parseFail
    [MgrAction.addListener 0, MgrAction.transportOpen 0] 0 _ rfl
    (by decide) (by decide) (by decide)).1

theorem spec_C3_counterexample :
    (run parseFail [MgrAction.addListener 0, MgrAction.transportOpen 0,
        MgrAction.transportClose 0, MgrAction.reconnectTimer]
      WebSocketManager.init).socks 1 = SockState.connecting ∧
    (run parseFail [MgrAction.addListener 0, MgrAction.transportOpen 0,
        MgrAction.transportClose 0, MgrAction.reconnectTimer,
        MgrAction.transportClose 1]
      WebSocketManager.init).listeners = [0] ∧
    (run parseFail [MgrAction.addListener 0, MgrAction.transportOpen 0,
        MgrAction.transportClose 0, MgrAction.reconnectTimer,
        MgrAction.transportClose 1]
      WebSocketManager.init).reconnectPending = 0 := by
  refine ⟨by decide, by decide, by decide⟩

/-- Claim C4 (amended): at every state reachable with transport errors
immediately followed by close and with earlier removals drained (their queued
close events delivered before anything else ran), removing the last listener
synchronously stops the ping interval, clears the reconnect handle, cancels
every pending reconnect timer, nulls and closes the transport — no socket
stays non-closed; and from any such state with zero listeners, `addListener`
immediately followed by the returned unsubscribe leaves zero open transports
and no timers.  Without the drain proviso the claim is false: the stale close
event of an earlier `removeListener`-closed socket runs `onclose`, abandoning
a live socket that the final removal cannot reach (see the counterexample). -/
theorem spec_C4_last_unsubscribe_cleanup (parse : String → Option String)
    (tr : List MgrAction) (l : Nat) (s : WebSocketManager)
    (htr : errFree tr = true) (hdr : drainFree tr = true)
    (hs : run parse tr WebSocketManager.init = s) :
    (s.listeners.erase l = [] →
      (s.removeListener l).pingInterval = false ∧
      (s.removeListener l).reconnectHandle = false ∧
      (s.removeListener l).reconnectPending = 0 ∧
      (s.removeListener l).ws = none ∧
      liveCount (s.removeListener l) = 0) ∧
    (s.listeners = [] →
      ((s.addListener l).removeListener l).pingInterval = false ∧
      ((s.addListener l).removeListener l).reconnectPending = 0 ∧
      ((s.addListener l).removeListener l).ws = none ∧
      liveCount ((s.addListener l).removeListener l) = 0) := by
  have hg : goodSock s := hs ▸ (goodInv_run parse tr htr hdr).1
  have ht : timerInv s := hs ▸ timerInv_run parse tr
  constructor
  · intro h
    exact removeListener_last_clean s l hg ht h
  · intro h
    have hg' : goodSock (s.addListener l) := goodSock_addListener l s hg
    have ht' : timerInv (s.addListener l) := timerInv_addListener l s ht
    have hl' : (s.addListener l).listeners.erase l = [] := by
      rw [addListener_listeners, h]
      simp
    obtain ⟨c1, c2, c3, c4, c5⟩ := removeListener_last_clean _ l hg' ht' hl'
    exact ⟨c1, c3, c4, c5⟩

theorem spec_C4_witness :
    liveCount ((run parseFail [MgrAction.addListener 0, MgrAction.transportOpen 0]
        WebSocketManager.init).removeListener 0) = 0 ∧
    ((run parseFail [MgrAction.addListener 0, MgrAction.transportOpen 0]
        WebSocketManager.init).removeListener 0).pingInterval = false := by
  have h := (spec_C4_last_unsubscribe_cleanup parseFail
    [MgrAction.addListener 0, MgrAction.transportOpen 0] 0 _
    (by decide) (by decide) rfl).1 (by decide)
  exact ⟨h.2.2.2.2, h.1⟩

theorem spec_C4_counterexample :
    (run parseFail
      [MgrAction.addListener 0, MgrAction.transportOpen 0,
       MgrAction.removeListener 0, MgrAction.addListener 1,
       MgrAction.transportClose 0, MgrAction.reconnectTimer]
      WebSocketManager.init).listeners = [1] ∧
    liveCount ((run parseFail
      [MgrAction.addListener 0, MgrAction.transportOpen 0,
       MgrAction.removeListener 0, MgrAction.addListener 1,
       MgrAction.transportClose 0, MgrAction.reconnectTimer]
      WebSocketManager.init).removeListener 1) = 1 := by
  refine ⟨by decide, by decide⟩

/-- Claim C5: a received frame that is not `"pong"` and parses as JSON is
fanned out to every currently subscribed listener in subscription order,
exactly once per listener: delivery appends one `(listener, payload)` record
per subscribed listener, in listener-set insertion order; insertion order is
subscription order (`addListener` appends a new listener at the end), and the
listener set of every reachable state is duplicate-free. -/
theorem spec_C5_fanout :
    (∀ (parse : String → Option String) (i : Nat) (data v : String)
       (s : WebSocketManager),
      s.socks i = SockState.opened → data ≠ "pong" → parse data = some v →
      (fireMessage parse i data s).delivered
        = s.delivered ++ s.listeners.map fun l => (l, v)) ∧
    (∀ (s : WebSocketManager) (l : Nat), l ∉ s.listeners →
      (s.addListener l).listeners = s.listeners ++ [l]) ∧
    (∀ (parse : String → Option String) (tr : List MgrAction),
      (run parse tr WebSocketManager.init).listeners.Nodup) := by
  refine ⟨?_, ?_, nodup_run⟩
  · intro parse i data v s hopen hpong hparse
    unfold WebSocketManager.fireMessage
    rw [if_pos hopen]
    unfold WebSocketManager.onmessage
    rw [if_neg hpong, hparse]
  · intro s l hmem
    rw [addListener_listeners, if_neg hmem]

theorem spec_C5_witness :
    (fireMessage parseOk 0 "x"
      (run parseOk [MgrAction.addListener 3, MgrAction.addListener 7,
        MgrAction.transportOpen 0] WebSocketManager.init)).delivered
      = [(3, "x"), (7, "x")] := by
  have h := spec_C5_fanout.1 parseOk 0 "x" "x"
    (run parseOk [MgrAction.addListener 3, MgrAction.addListener 7,
      MgrAction.transportOpen 0] WebSocketManager.init)
    (by decide) (by decide) rfl
  rw [h]
  rfl

/-- Claim C6: the heartbeat period is the fixed 30000 ms; once a socket's
open event fires the ping interval is active; each tick sends the literal
`"ping"` exactly while the referenced socket is OPEN and sends nothing
otherwise; and receiving the literal `"pong"` changes no state and delivers
nothing to any listener. -/
theorem spec_C6_heartbeat :
    WebSocketManager.pingIntervalMs = 30000 ∧
    (∀ (i : Nat) (s : WebSocketManager), s.socks i = SockState.connecting →
      (fireOpen i s).pingInterval = true) ∧
    (∀ s : WebSocketManager, s.pingInterval = true → s.wsOpen = true →
      (firePingTimer s).sent = s.sent ++ ["ping"]) ∧
    (∀ s : WebSocketManager, s.wsOpen = false → firePingTimer s = s) ∧
    (∀ (parse : String → Option String) (i : Nat) (s : WebSocketManager),
      fireMessage parse i "pong" s = s) := by
  refine ⟨rfl, ?_, ?_, ?_, ?_⟩
  · intro i s h
    unfold WebSocketManager.fireOpen
    rw [if_pos h]
    rfl
  · intro s h1 h2
    unfold WebSocketManager.firePingTimer
    rw [if_pos ⟨h1, h2⟩]
  · intro s h
    unfold WebSocketManager.firePingTimer
    rw [if_neg (fun hc => by rw [h] at hc; exact Bool.noConfusion hc.2)]
  · intro parse i s
    unfold WebSocketManager.fireMessage WebSocketManager.onmessage
    split
    · rw [if_pos rfl]
    · rfl

theorem spec_C6_witness :
    (firePingTimer (run parseFail [MgrAction.addListener 0, MgrAction.transportOpen 0]
      WebSocketManager.init)).sent = ["ping"] := by
  have h := spec_C6_heartbeat.2.2.1
    (run parseFail [MgrAction.addListener 0, MgrAction.transportOpen 0]
      WebSocketManager.init) (by decide) (by decide)
  rw [h]
  rfl

/-- Claim C7: the client id is generated once and cached under the key
`mcp_client_id`: the first construction on empty storage generates the id and
stores it, and every subsequent construction reads back that identical id,
so the id is stable across reconnects and reloads. -/
theorem spec_C7_stable_client_id (ls : String → Option String) (r1 r2 : String) :
    (mgrConstructor ls r1).2 "mcp_client_id" = some (mgrConstructor ls r1).1 ∧
    (mgrConstructor (mgrConstructor ls r1).2 r2).1 = (mgrConstructor ls r1).1 ∧
    (ls "mcp_client_id" = none → (mgrConstructor ls r1).1 = generateClientId r1) := by
  refine ⟨mgrConstructor_setItem ls r1, ?_, ?_⟩
  · exact mgrConstructor_stored _ r2 _ (mgrConstructor_setItem ls r1)
      (mgrConstructor_fst_ne_empty ls r1)
  · intro h
    unfold mgrConstructor
    dsimp only
    rw [h]

theorem spec_C7_witness :
    (mgrConstructor (mgrConstructor (fun _ => none) "abc").2 "xyz").1 = "mcp-abc" := by
  have h := spec_C7_stable_client_id (fun _ => none) "abc" "xyz"
  rw [h.2.1, h.2.2 rfl]
  rfl

/-- Claim C8 (amended): under the listener interface alone — no direct
`connect()` call (which `createWebSocket()` performs eagerly on handle
creation), transport errors immediately followed by close, and removals
drained (each `removeListener` `close()`'s queued close event delivered
before anything else runs) — no non-closed transport exists while the
subscriber count is zero, and without any `addListener` call no transport is
ever constructed.  The unamended claim fails twice: `createWebSocket()`
connects before any listener is registered, and the stale close event of a
`removeListener`-closed socket abandons a live socket that persists after the
last unsubscribe on a connect-free, error-free trace (see the
counterexample's two parts). -/
theorem spec_C8_scoped_to_consumers (parse : String → Option String)
    (tr : List MgrAction) (s : WebSocketManager)
    (h1 : errFree tr = true) (h2 : connectFree tr = true)
    (h3 : drainFree tr = true)
    (hs : run parse tr WebSocketManager.init = s) :
    (s.listeners = [] → liveCount s = 0) ∧
    (addFree tr = true → s.nSockets = 0) := by
  constructor
  · intro hl
    have hz := (zlc_run parse tr h1 h2 h3).2
    exact liveCount_eq_zero s ((hs ▸ hz) hl)
  · intro h4
    exact (hs ▸ pristine_run parse tr h2 h4).2.2.1

theorem spec_C8_witness :
    liveCount (run parseFail
      [MgrAction.addListener 0, MgrAction.removeListenerDrained 0]
      WebSocketManager.init) = 0 :=
  (spec_C8_scoped_to_consumers parseFail
    [MgrAction.addListener 0, MgrAction.removeListenerDrained 0] _
    (by decide) (by decide) (by decide) rfl).1 (by decide)

theorem spec_C8_counterexample :
    ((fireOpen 0 (createWebSocket WebSocketManager.init)).listeners = [] ∧
     (fireOpen 0 (createWebSocket WebSocketManager.init)).socks 0
       = SockState.opened) ∧
    ((run parseFail
       [MgrAction.addListener 0, MgrAction.transportOpen 0,
        MgrAction.removeListener 0, MgrAction.addListener 1,
        MgrAction.transportClose 0, MgrAction.reconnectTimer,
        MgrAction.removeListener 1]
       WebSocketManager.init).listeners = [] ∧
     liveCount (run parseFail
       [MgrAction.addListener 0, MgrAction.transportOpen 0,
        MgrAction.removeListener 0, MgrAction.addListener 1,
        MgrAction.transportClose 0, MgrAction.reconnectTimer,
        MgrAction.removeListener 1]
       WebSocketManager.init) = 1) := by
  refine ⟨⟨by decide, by decide⟩, by decide, by decide⟩

/-- Claim C9: a received frame that is not `"pong"` and does not parse as
JSON has no effect at all: the parse error is swallowed by the handler's
catch, no listener is invoked, and the entire manager state — socket,
listener set, timers, logs — is exactly as before the frame arrived. -/
theorem spec_C9_parse_error_no_effect (parse : String → Option String) (i : Nat)
    (data : String) (s : WebSocketManager) (h1 : data ≠ "pong")
    (h2 : parse data = none) :
    fireMessage parse i data s = s := by
  unfold WebSocketManager.fireMessage WebSocketManager.onmessage
  rw [if_neg h1, h2]
  split <;> rfl

theorem spec_C9_witness :
    fireMessage parseFail 0 "oops" WebSocketManager.init = WebSocketManager.init :=
  spec_C9_parse_error_no_effect parseFail 0 "oops" WebSocketManager.init
    (by decide) rfl

/-- Claim C10: the `close` member of the handle returned by `createWebSocket`
is a no-op in every manager state — it changes nothing, leaving socket,
listener set and timers untouched; the transport is actually released only by
`removeListener` removing the last listener: a non-last removal changes only
the listener set, while the last removal closes and nulls the referenced
socket. -/
theorem spec_C10_handle_close_noop :
    (∀ s : WebSocketManager, createWebSocketClose s = s) ∧
    (∀ (s : WebSocketManager) (l : Nat), s.listeners.erase l ≠ [] →
      s.removeListener l = { s with listeners := s.listeners.erase l }) ∧
    (∀ (s : WebSocketManager) (l w : Nat), s.ws = some w →
      s.listeners.erase l = [] →
      (s.removeListener l).socks w = SockState.closed ∧
      (s.removeListener l).ws = none) := by
  refine ⟨fun _ => rfl, ?_, ?_⟩
  · intro s l h
    unfold WebSocketManager.removeListener
    rw [if_neg h]
  · intro s l w hw h
    unfold WebSocketManager.removeListener
    rw [if_pos h]
    refine ⟨?_, rfl⟩
    dsimp only
    rw [if_pos hw]

theorem spec_C10_witness :
    ((run parseFail [MgrAction.addListener 0]
        WebSocketManager.init).removeListener 0).socks 0 = SockState.closed ∧
    ((run parseFail [MgrAction.addListener 0]
        WebSocketManager.init).removeListener 0).ws = none :=
  spec_C10_handle_close_noop.2.2
    (run parseFail [MgrAction.addListener 0] WebSocketManager.init) 0 0
    (by decide) (by decide)
